import Mathlib

/-!
Shallow embedding of the booking / availability / quota / session / tagging
core of the FSA hunting-platform repository (src/db_helpers.py, with the one
relevant caller sequence from src/app.py).

Conventions of the embedding:
* The SQLAlchemy database is a record of lists of rows plus auto-increment
  counters; `query(...).filter(...).first()` becomes `List.find?`,
  `.all()` becomes `List.filter`, and a committed row update becomes an
  in-place update of the first matching list element.
* Python ints are `Int` (with explicit `max 0 _` where the source clamps);
  ids and counters are `Nat`; floats (prices, hours) are carried as `Int`
  since no claim depends on fractional arithmetic; `datetime` values are
  opaque `Nat` timestamps supplied by the caller as a `now` argument, and
  the `strftime` date string is supplied as a `today` argument.
* `uuid.uuid4()` (standard library randomness, used by
  `generate_unique_tag_number`) is modelled as drawing successive values
  from a token stream `uuids : Nat → String` held in the state; the spec
  directs that the draw be treated as a collision-free 128-bit random
  token, which appears in theorems as an injectivity / freshness
  hypothesis on the stream.
* The functions are pure state transformers by construction; read-only
  helpers (`check_availability`, `check_hunter_has_booking_on_date`,
  `get_animal_tag_by_tag_number`) take the state and return no new state,
  which is the embedding of "no side effects; pure read".
-/

namespace FSA

/-- A row of the `bookings` table (src/database.py), restricted to the
columns the claims touch. -/
structure Booking where
  id : Nat
  field_id : Nat
  hunter_id : Nat
  date : String
  num_hunters : Int
  total_price : Int
  status : String
  payment_method : String
  payment_id : String
deriving Repr, DecidableEq

/-- One `{species, total, remaining}` entry of a field's `quarry_species`
JSON list. -/
structure QuotaEntry where
  species : String
  total : Int
  remaining : Int
deriving Repr, DecidableEq

/-- A row of the `fields` table, restricted to the columns the claims
touch.  `quarry_species = []` plays the role of Python's falsy
(`None` or empty) JSON column. -/
structure Field where
  id : Nat
  name : String
  capacity : Int
  blocked_dates : List String
  auto_approve_bookings : Bool
  field_type : String
  quarry_species : List QuotaEntry
  quarry_total : Option Int
  quarry_remaining : Option Int
  last_visit_date : String
  last_visit_had_harvest : Bool
deriving Repr, DecidableEq

/-- A row of the `hunt_sessions` table. -/
structure HuntSession where
  id : Nat
  booking_id : Nat
  status : String
  start_time : Option Nat
  end_time : Option Nat
deriving Repr, DecidableEq

/-- One harvested `{species, quantity}` entry of a report's
`species_harvested` list (built by src/app.py as nonnegative counts). -/
structure Harvested where
  species : String
  quantity : Int
deriving Repr, DecidableEq

/-- A row of the `hunt_reports` table, restricted to the columns the
claims touch. -/
structure HuntReport where
  id : Nat
  session_id : Nat
  field_id : Nat
  hunter_id : Nat
  animals_harvested : Int
  species_harvested : List Harvested
  weather_conditions : String
  time_spent_hours : Int
  notes : String
  ground_remarks : String
  success : Bool
deriving Repr, DecidableEq

/-- The `report_data` dict handed to `create_hunt_report`. -/
structure ReportData where
  animals_harvested : Int
  species_harvested : List Harvested
  weather_conditions : String
  time_spent_hours : Int
  notes : String
  ground_remarks : String
  success : Bool
deriving Repr, DecidableEq

/-- A row of the `animal_tags` table, restricted to the columns the claims
touch. -/
structure AnimalTag where
  tag_number : String
  hunt_report_id : Nat
  hunter_id : Nat
  field_id : Nat
  species : String
  condition : String
deriving Repr, DecidableEq

/-- The database state: the tables the claims touch, auto-increment
counters, and the token stream modelling `uuid.uuid4()`. -/
structure DB where
  fields : List Field
  bookings : List Booking
  sessions : List HuntSession
  reports : List HuntReport
  tags : List AnimalTag
  next_booking_id : Nat
  next_report_id : Nat
  uuids : Nat → String
  uuid_count : Nat

/-- Update the first element of a list satisfying `p` (the embedding of
querying `.first()` and committing a mutation of the returned row). -/
def updateFirst (p : α → Bool) (f : α → α) : List α → List α
  | [] => []
  | x :: xs => if p x then f x :: xs else x :: updateFirst p f xs

/-- `Booking.status.in_(['confirmed', 'pending'])`. -/
def isActiveStatus (s : String) : Bool :=
  s == "confirmed" || s == "pending"

/-- `check_hunter_has_booking_on_date` (src/db_helpers.py:569): first
booking of the hunter on the date with status confirmed/pending, across
all fields. -/
def check_hunter_has_booking_on_date (db : DB) (hunter_id : Nat) (date : String) :
    Bool × Option Booking :=
  let existing_booking := db.bookings.find? fun b =>
    b.hunter_id == hunter_id && b.date == date && isActiveStatus b.status
  (existing_booking.isSome, existing_booking)

/-- `create_booking` (src/db_helpers.py:586).  Returns the new state
together with the `(booking, message)` pair the Python function returns. -/
def create_booking (db : DB) (field_id hunter_id : Nat) (date : String)
    (num_hunters total_price : Int) (payment_id : String)
    (admin_override : Bool) : DB × Option Booking × String :=
  let conflict_msg : Option String :=
    if !admin_override then
      let r := check_hunter_has_booking_on_date db hunter_id date
      if r.1 then
        let field_name :=
          match r.2 with
          | some existing_booking =>
              match db.fields.find? (fun f : Field => f.id == existing_booking.field_id) with
              | some existing_field => existing_field.name
              | none => "Unknown"
          | none => "Unknown"
        some ("Double booking prevented: You already have a booking on " ++ date ++ " at " ++ field_name)
      else none
    else none
  match conflict_msg with
  | some msg => (db, none, msg)
  | none =>
    let field := db.fields.find? fun f => f.id == field_id
    let initial_status :=
      match field with
      | some f => if f.auto_approve_bookings then "confirmed" else "pending"
      | none => "pending"
    let booking : Booking :=
      { id := db.next_booking_id
        field_id := field_id
        hunter_id := hunter_id
        date := date
        num_hunters := num_hunters
        total_price := total_price
        status := initial_status
        payment_method := "card"
        payment_id := payment_id }
    let db' := { db with bookings := db.bookings ++ [booking],
                         next_booking_id := db.next_booking_id + 1 }
    let override_msg := if admin_override then " (Admin Override)" else ""
    (db', some booking, "Booking created successfully" ++ override_msg)

/-- The bookings counted against a field's capacity on a date: same field,
same date, status confirmed/pending (the filter inside
`check_availability`). -/
def bookingsOnDate (db : DB) (field_id : Nat) (date : String) : List Booking :=
  db.bookings.filter fun b =>
    b.field_id == field_id && b.date == date && isActiveStatus b.status

/-- `total_hunters_booked` inside `check_availability`. -/
def totalHuntersBooked (db : DB) (field_id : Nat) (date : String) : Int :=
  ((bookingsOnDate db field_id date).map Booking.num_hunters).sum

/-- `check_availability` (src/db_helpers.py:641): field existence, blocked
date, then capacity, first failure winning.  A pure read: the state is
not returned. -/
def check_availability (db : DB) (field_id : Nat) (date : String)
    (num_hunters : Int) : Bool × String :=
  match db.fields.find? (fun f => f.id == field_id) with
  | none => (false, "Field not found")
  | some field =>
    if field.blocked_dates.contains date then
      (false, "Date is blocked by outfitter")
    else
      let total_hunters_booked := totalHuntersBooked db field_id date
      if field.capacity < total_hunters_booked + num_hunters then
        let headroom := field.capacity - total_hunters_booked
        (false, "Insufficient capacity. Only " ++ toString headroom ++ " spots available")
      else
        (true, "Available")

/-- `start_hunt_session` (src/db_helpers.py:801): looks the session up by
id and, when found, unconditionally sets `start_time := now` and
`status := "active"`.  Returns the refreshed session. -/
def start_hunt_session (db : DB) (session_id : Nat) (now : Nat) :
    DB × Option HuntSession :=
  match db.sessions.find? (fun s => s.id == session_id) with
  | none => (db, none)
  | some session =>
    let session' := { session with start_time := some now, status := "active" }
    ({ db with sessions :=
         updateFirst (fun s => s.id == session_id) (fun _ => session') db.sessions },
     some session')

/-- `end_hunt_session` (src/db_helpers.py:819): looks the session up by id
and, when found, unconditionally sets `end_time := now` and
`status := "completed"`.  Returns the refreshed session. -/
def end_hunt_session (db : DB) (session_id : Nat) (now : Nat) :
    DB × Option HuntSession :=
  match db.sessions.find? (fun s => s.id == session_id) with
  | none => (db, none)
  | some session =>
    let session' := { session with end_time := some now, status := "completed" }
    ({ db with sessions :=
         updateFirst (fun s => s.id == session_id) (fun _ => session') db.sessions },
     some session')

/-- The species name the quota loop extracts from a harvested entry
(`harvested.get('species', harvested.get(' species', ''))`; the embedding
resolves the dict lookup to the `species` field). -/
def harvestedSpecies (h : Harvested) : String :=
  h.species

/-- The inner quota loop of `create_hunt_report`: walk the field's
`quarry_species` list, and on the first entry whose `species` matches,
set `remaining := max(0, remaining - quantity)` and `break`. -/
def applyHarvest (qs : List QuotaEntry) (h : Harvested) : List QuotaEntry :=
  updateFirst (fun q => q.species == harvestedSpecies h)
    (fun q => { q with remaining := max 0 (q.remaining - h.quantity) }) qs

/-- The field mutation performed by `create_hunt_report` once the field
row has been fetched: record the visit, then on a diy-leased field
deplete the per-species quota list when it is non-empty (Python truthy),
else the scalar `quarry_remaining` when it is set. -/
def updateFieldForReport (field : Field) (rd : ReportData) (today : String) : Field :=
  let field := { field with
    last_visit_date := today
    last_visit_had_harvest := decide (rd.animals_harvested > 0) }
  if field.field_type == "diy-leased" then
    if !field.quarry_species.isEmpty then
      { field with quarry_species := rd.species_harvested.foldl applyHarvest field.quarry_species }
    else
      match field.quarry_remaining with
      | some r => { field with quarry_remaining := some (max 0 (r - rd.animals_harvested)) }
      | none => field
  else field

/-- `create_hunt_report` (src/db_helpers.py:837): insert the report row,
then (when the field exists) apply `updateFieldForReport` to it. -/
def create_hunt_report (db : DB) (session_id field_id hunter_id : Nat)
    (rd : ReportData) (today : String) : DB × HuntReport :=
  let report : HuntReport :=
    { id := db.next_report_id
      session_id := session_id
      field_id := field_id
      hunter_id := hunter_id
      animals_harvested := rd.animals_harvested
      species_harvested := rd.species_harvested
      weather_conditions := rd.weather_conditions
      time_spent_hours := rd.time_spent_hours
      notes := rd.notes
      ground_remarks := rd.ground_remarks
      success := rd.success }
  let db := { db with reports := db.reports ++ [report],
                      next_report_id := db.next_report_id + 1 }
  match db.fields.find? (fun f => f.id == field_id) with
  | none => (db, report)
  | some _ =>
    let fields' :=
      updateFirst (fun f => f.id == field_id)
        (fun f => updateFieldForReport f rd today) db.fields
    ({ db with fields := fields' }, report)

/-- The report-then-end sequence of src/app.py:1929-1930: the only caller
of `end_hunt_session` submits the hunt report and then ends the session. -/
def finish_hunt_flow (db : DB) (session_id field_id hunter_id : Nat)
    (rd : ReportData) (today : String) (now : Nat) : DB × Option HuntSession :=
  let r := create_hunt_report db session_id field_id hunter_id rd today
  end_hunt_session r.1 session_id now

/-- `generate_unique_tag_number` (src/db_helpers.py:1356):
`str(uuid.uuid4())`, modelled as the next draw from the token stream. -/
def generate_unique_tag_number (db : DB) : String × DB :=
  (db.uuids db.uuid_count, { db with uuid_count := db.uuid_count + 1 })

/-- `create_animal_tag` (src/db_helpers.py:1396), restricted to the
persisted columns the claims touch (QR-code and photo artifact paths are
filesystem side effects outside the data model). -/
def create_animal_tag (db : DB) (hunt_report_id hunter_id field_id : Nat)
    (species condition : String) : DB × AnimalTag :=
  let g := generate_unique_tag_number db
  let new_tag : AnimalTag :=
    { tag_number := g.1
      hunt_report_id := hunt_report_id
      hunter_id := hunter_id
      field_id := field_id
      species := species
      condition := condition }
  ({ g.2 with tags := g.2.tags ++ [new_tag] }, new_tag)

/-- `get_animal_tag_by_tag_number` (src/db_helpers.py:1444): first tag
with the given tag number, `none` when absent. -/
def get_animal_tag_by_tag_number (db : DB) (tag_number : String) : Option AnimalTag :=
  db.tags.find? fun t => t.tag_number == tag_number

/-! ### Specification-side notions -/

/-- The arguments of one hunter-facing `create_booking` call (always with
`admin_override = False`). -/
structure BookingRequest where
  field_id : Nat
  hunter_id : Nat
  date : String
  num_hunters : Int
  total_price : Int
  payment_id : String
deriving Repr, DecidableEq

/-- Run a sequence of `create_booking` calls without admin override,
keeping only the evolving state. -/
def run_bookings (db : DB) : List BookingRequest → DB
  | [] => db
  | r :: rs =>
    run_bookings
      (create_booking db r.field_id r.hunter_id r.date r.num_hunters
        r.total_price r.payment_id false).1 rs

/-- The hunter's bookings on a date with status pending/confirmed. -/
def activeBookingsOf (db : DB) (hunter_id : Nat) (date : String) : List Booking :=
  db.bookings.filter fun b =>
    b.hunter_id == hunter_id && b.date == date && isActiveStatus b.status

/-- Spec invariant: every hunter has at most one pending/confirmed booking
per date, across all fields. -/
def hunterDateInvariant (db : DB) : Prop :=
  ∀ h d, (activeBookingsOf db h d).length ≤ 1

/-- Spec invariant: on every field and date, the pending/confirmed
bookings sum to at most the field's capacity (the field being the one
`field_id` resolves to). -/
def capacityInvariant (db : DB) : Prop :=
  ∀ fid d f, db.fields.find? (fun g => g.id == fid) = some f →
    totalHuntersBooked db fid d ≤ f.capacity

/-- Status of the session `session_id` resolves to. -/
def sessionStatus (db : DB) (session_id : Nat) : Option String :=
  (db.sessions.find? fun s => s.id == session_id).map HuntSession.status

/-- A UI-guarded session operation, as src/app.py issues them: the Start
button is rendered only for a `not_started` session, the Finish button
only for an `active` one. -/
inductive GuardedSessionOp where
  | start (now : Nat)
  | finish (now : Nat)
deriving Repr, DecidableEq

/-- Apply a guarded session operation: the underlying helper runs only
when the session exists and its status passes the UI guard. -/
def applyGuardedOp (db : DB) (session_id : Nat) : GuardedSessionOp → DB
  | .start now =>
    match db.sessions.find? (fun s => s.id == session_id) with
    | some s => if s.status == "not_started" then (start_hunt_session db session_id now).1 else db
    | none => db
  | .finish now =>
    match db.sessions.find? (fun s => s.id == session_id) with
    | some s => if s.status == "active" then (end_hunt_session db session_id now).1 else db
    | none => db

/-- One step of the session lifecycle: stay put, or advance one place
along not_started → active → completed.  The statuses visited by a chain
of such steps from `"not_started"` form a prefix of
`[not_started, active, completed]`. -/
def sessionStep (x y : String) : Prop :=
  y = x ∨ (x = "not_started" ∧ y = "active") ∨ (x = "active" ∧ y = "completed")

/-- Total quantity reported harvested for one species. -/
def harvestTotalFor (hs : List Harvested) (sp : String) : Int :=
  ((hs.filter fun h => harvestedSpecies h == sp).map Harvested.quantity).sum

/-- One clamped decrement of a remaining value by a harvested entry, for
the species `sp` (the body of the quota loop seen from one entry). -/
def clampStep (sp : String) (acc : Int) (h : Harvested) : Int :=
  if harvestedSpecies h == sp then max 0 (acc - h.quantity) else acc

/-- The final remaining value of one quota entry after the whole
harvested list has been applied. -/
def foldRemaining (hs : List Harvested) (q : QuotaEntry) : QuotaEntry :=
  { q with remaining := hs.foldl (clampStep q.species) q.remaining }

/-- The spec's description of quota depletion: one clamped decrement by
the total quantity harvested of the entry's species. -/
def clampBySpeciesTotal (hs : List Harvested) (q : QuotaEntry) : QuotaEntry :=
  { q with remaining := max 0 (q.remaining - harvestTotalFor hs q.species) }

/-- The species names of a quota list are pairwise distinct. -/
def speciesNodup (qs : List QuotaEntry) : Prop :=
  (qs.map QuotaEntry.species).Nodup

/-- Spec invariant `0 ≤ remaining ≤ total` for one quota entry. -/
def quotaEntryOK (q : QuotaEntry) : Prop :=
  0 ≤ q.remaining ∧ q.remaining ≤ q.total

/-- Spec invariant `0 ≤ remaining ≤ total` for a field, in both quota
representations. -/
def fieldQuotaOK (f : Field) : Prop :=
  (∀ q ∈ f.quarry_species, quotaEntryOK q) ∧
  (∀ r t, f.quarry_remaining = some r → f.quarry_total = some t → 0 ≤ r ∧ r ≤ t)

/-- Run a sequence of booking requests each guarded by a successful
`check_availability` in the state it executes in, as the booking UI does
(src/app.py: the Complete Booking button is rejected unless
`check_availability` returned available). -/
def run_guarded_bookings (db : DB) : List BookingRequest → DB
  | [] => db
  | r :: rs =>
    let db' :=
      if (check_availability db r.field_id r.date r.num_hunters).1 then
        (create_booking db r.field_id r.hunter_id r.date r.num_hunters
          r.total_price r.payment_id false).1
      else db
    run_guarded_bookings db' rs

/-! ### Example states used by witnesses and counterexamples -/

/-- An empty database. -/
def emptyDB : DB :=
  { fields := [], bookings := [], sessions := [], reports := [], tags := []
    next_booking_id := 1, next_report_id := 1
    uuids := fun n => toString n, uuid_count := 0 }

/-- A one-field example: capacity 1, one blocked date, a Red Deer quota. -/
def fieldA : Field :=
  { id := 1, name := "Alpha", capacity := 1, blocked_dates := ["2025-01-02"]
    auto_approve_bookings := false, field_type := "diy-leased"
    quarry_species := [⟨"Red Deer", 10, 10⟩], quarry_total := none
    quarry_remaining := none, last_visit_date := "", last_visit_had_harvest := false }

/-- Example state: one field, no bookings, a completed session (id 1) and
a not-yet-started session (id 2), no reports. -/
def dbA : DB :=
  { emptyDB with
    fields := [fieldA]
    sessions := [⟨1, 1, "completed", some 5, some 6⟩, ⟨2, 2, "not_started", none, none⟩] }

/-- A pending booking of hunter 1 on 2025-01-01 at field 1. -/
def bookingB : Booking :=
  { id := 1, field_id := 1, hunter_id := 1, date := "2025-01-01", num_hunters := 1
    total_price := 100, status := "pending", payment_method := "card", payment_id := "pm_1" }

/-- Example state: like `dbA` but hunter 1 already holds `bookingB`. -/
def dbB : DB :=
  { dbA with bookings := [bookingB], next_booking_id := 2 }

/-- A variant of `fieldA` that is not diy-leased. -/
def fieldB : Field :=
  { fieldA with id := 2, field_type := "subsidised" }

/-- A variant of `fieldA` with a scalar quota instead of a species list. -/
def fieldC : Field :=
  { fieldA with id := 3, quarry_species := [], quarry_total := some 9, quarry_remaining := some 4 }

/-- An example hunt report: three Red Deer taken. -/
def rdEx : ReportData :=
  { animals_harvested := 3, species_harvested := [⟨"Red Deer", 3⟩]
    weather_conditions := "Good", time_spent_hours := 8, notes := ""
    ground_remarks := "", success := true }

/-- An empty hunt report: nothing harvested. -/
def rdZero : ReportData :=
  { animals_harvested := 0, species_harvested := []
    weather_conditions := "Good", time_spent_hours := 8, notes := ""
    ground_remarks := "", success := false }

/-- A report harvesting one Boar, a species no quota entry of `fieldA`
tracks. -/
def rdBoar : ReportData :=
  { animals_harvested := 1, species_harvested := [⟨"Boar", 1⟩]
    weather_conditions := "Good", time_spent_hours := 8, notes := ""
    ground_remarks := "", success := true }

/-! ### Lemmas about `updateFirst` -/

theorem updateFirst_length (p : α → Bool) (f : α → α) (l : List α) :
    (updateFirst p f l).length = l.length := by
  induction l with
  | nil => rfl
  | cons x xs ih =>
    simp only [updateFirst]
    split <;> simp [ih]

theorem updateFirst_of_forall_neg (p : α → Bool) (f : α → α) (l : List α)
    (h : ∀ x ∈ l, p x = false) : updateFirst p f l = l := by
  induction l with
  | nil => rfl
  | cons x xs ih =>
    have hx := h x (List.mem_cons_self x xs)
    simp only [updateFirst, hx, Bool.false_eq_true, if_false]
    rw [ih fun y hy => h y (List.mem_cons_of_mem x hy)]

theorem updateFirst_getElem?_of_neg (p : α → Bool) (f : α → α) (l : List α)
    (i : Nat) (hneg : ∀ x, l[i]? = some x → p x = false) :
    (updateFirst p f l)[i]? = l[i]? := by
  induction l generalizing i with
  | nil => rfl
  | cons x xs ih =>
    by_cases hpx : p x
    · simp only [updateFirst, hpx, if_true]
      cases i with
      | zero =>
        have := hneg x (by simp)
        rw [hpx] at this
        exact absurd this (by simp)
      | succ n => simp [List.getElem?_cons_succ]
    · simp only [updateFirst, hpx, Bool.false_eq_true, if_false]
      cases i with
      | zero => simp
      | succ n =>
        simp only [List.getElem?_cons_succ]
        exact ih n fun y hy => hneg y (by simpa using hy)

theorem mem_updateFirst {p : α → Bool} {f : α → α} {l : List α} {x : α}
    (hx : x ∈ updateFirst p f l) : x ∈ l ∨ ∃ y ∈ l, x = f y := by
  induction l with
  | nil => simp [updateFirst] at hx
  | cons a as ih =>
    simp only [updateFirst] at hx
    by_cases hpa : p a
    · rw [if_pos hpa] at hx
      rcases List.mem_cons.mp hx with h | h
      · exact Or.inr ⟨a, List.mem_cons_self a as, h⟩
      · exact Or.inl (List.mem_cons_of_mem a h)
    · rw [if_neg hpa] at hx
      rcases List.mem_cons.mp hx with h | h
      · exact Or.inl (h ▸ List.mem_cons_self a as)
      · rcases ih h with h2 | ⟨y, hy, hxy⟩
        · exact Or.inl (List.mem_cons_of_mem a h2)
        · exact Or.inr ⟨y, List.mem_cons_of_mem a hy, hxy⟩

theorem find?_updateFirst (p : α → Bool) (f : α → α) (l : List α)
    (hf : ∀ x, p x = true → p (f x) = true) :
    (updateFirst p f l).find? p = (l.find? p).map f := by
  induction l with
  | nil => rfl
  | cons x xs ih =>
    by_cases hpx : p x
    · simp only [updateFirst, hpx, if_true, List.find?, hf x hpx]
      rfl
    · have hpx' : p x = false := by
        rcases hb : p x with _ | _
        · rfl
        · exact absurd hb hpx
      simp only [updateFirst, hpx', Bool.false_eq_true, if_false, List.find?, hpx']
      exact ih

theorem updateFirst_eq_map_of_countP_le_one (p : α → Bool) (f : α → α) (l : List α)
    (h : l.countP p ≤ 1) :
    updateFirst p f l = l.map fun x => if p x then f x else x := by
  induction l with
  | nil => rfl
  | cons x xs ih =>
    rw [List.countP_cons] at h
    by_cases hpx : p x
    · rw [if_pos hpx] at h
      have hzero : xs.countP p = 0 := by omega
      have hnone : ∀ y ∈ xs, ¬ p y = true := List.countP_eq_zero.mp hzero
      have hmap : xs.map (fun x => if p x then f x else x) = xs := by
        have : xs.map (fun x => if p x then f x else x) = xs.map id :=
          List.map_congr_left fun y hy => by simp [hnone y hy]
        rw [this, List.map_id]
      simp only [updateFirst, hpx, if_true, List.map, hmap]
    · have hpx' : p x = false := by
        rcases hb : p x with _ | _
        · rfl
        · exact absurd hb hpx
      rw [if_neg hpx] at h
      simp only [updateFirst, hpx', Bool.false_eq_true, if_false, List.map, hpx']
      rw [ih (by omega)]

theorem map_updateFirst_of_preserve (p : α → Bool) (f : α → α) (g : α → β) (l : List α)
    (hg : ∀ x, g (f x) = g x) : (updateFirst p f l).map g = l.map g := by
  induction l with
  | nil => rfl
  | cons x xs ih =>
    by_cases hpx : p x
    · simp only [updateFirst, hpx, if_true, List.map, hg x]
    · simp only [updateFirst, hpx, Bool.false_eq_true, if_false, List.map, ih]

/-! ### Lemmas about quota depletion -/

theorem harvestTotalFor_nonneg (hs : List Harvested) (sp : String)
    (hq : ∀ h ∈ hs, 0 ≤ h.quantity) : 0 ≤ harvestTotalFor hs sp := by
  unfold harvestTotalFor
  induction hs with
  | nil => simp
  | cons h t ih =>
    by_cases hm : harvestedSpecies h == sp
    · simp only [List.filter_cons, hm, if_true, List.map, List.sum_cons]
      have h1 := hq h (List.mem_cons_self h t)
      have h2 := ih fun x hx => hq x (List.mem_cons_of_mem h hx)
      omega
    · have hm' : (harvestedSpecies h == sp) = false := by
        rcases hb : (harvestedSpecies h == sp) with _ | _
        · rfl
        · exact absurd hb hm
      simp only [List.filter_cons, hm', Bool.false_eq_true, if_false]
      exact ih fun x hx => hq x (List.mem_cons_of_mem h hx)

/-- Per-entry view of the quota loop: folding the clamped decrement over
the harvested list equals one clamped decrement by the species total. -/
theorem foldl_clamp_eq (sp : String) (hs : List Harvested) (r : Int) (hr : 0 ≤ r)
    (hq : ∀ h ∈ hs, 0 ≤ h.quantity) :
    hs.foldl (clampStep sp) r = max 0 (r - harvestTotalFor hs sp) := by
  induction hs generalizing r with
  | nil =>
    simp only [List.foldl_nil, harvestTotalFor, List.filter_nil, List.map_nil,
      List.sum_nil, sub_zero]
    omega
  | cons h t ih =>
    have hqh := hq h (List.mem_cons_self h t)
    have hqt : ∀ x ∈ t, 0 ≤ x.quantity := fun x hx => hq x (List.mem_cons_of_mem h hx)
    have htot : 0 ≤ harvestTotalFor t sp := harvestTotalFor_nonneg t sp hqt
    by_cases hm : harvestedSpecies h == sp
    · simp only [List.foldl_cons, clampStep, hm, if_true]
      rw [ih (max 0 (r - h.quantity)) (le_max_left 0 _) hqt]
      have hexp : harvestTotalFor (h :: t) sp = h.quantity + harvestTotalFor t sp := by
        simp only [harvestTotalFor, List.filter_cons, hm, if_true, List.map, List.sum_cons]
      rw [hexp]
      omega
    · have hm' : (harvestedSpecies h == sp) = false := by
        rcases hb : (harvestedSpecies h == sp) with _ | _
        · rfl
        · exact absurd hb hm
      simp only [List.foldl_cons, clampStep, hm', Bool.false_eq_true, if_false]
      rw [ih r hr hqt]
      have hexp : harvestTotalFor (h :: t) sp = harvestTotalFor t sp := by
        simp only [harvestTotalFor, List.filter_cons, hm', Bool.false_eq_true, if_false]
      rw [hexp]

theorem countP_species_le_one (qs : List QuotaEntry) (hnodup : speciesNodup qs)
    (sp : String) : qs.countP (fun q => q.species == sp) ≤ 1 := by
  induction qs with
  | nil => simp
  | cons q t ih =>
    have hnd : (q.species :: t.map QuotaEntry.species).Nodup := hnodup
    rw [List.nodup_cons] at hnd
    rw [List.countP_cons]
    by_cases hm : q.species == sp
    · have hsp : q.species = sp := by simpa using hm
      have hzero : t.countP (fun x => x.species == sp) = 0 := by
        rw [List.countP_eq_zero]
        intro x hx hxsp
        have : x.species = sp := by simpa using hxsp
        exact hnd.1 (hsp ▸ this ▸ List.mem_map_of_mem QuotaEntry.species hx)
      rw [hzero]
      simp [hm]
    · have hm' : (q.species == sp) = false := by
        rcases hb : (q.species == sp) with _ | _
        · rfl
        · exact absurd hb hm
      rw [hm']
      simpa using ih hnd.2

/-- Under pairwise-distinct species names, the whole quota loop is a
pointwise map: each entry's `remaining` is folded through the clamped
decrements of its own species. -/
theorem foldl_applyHarvest_eq_map (hs : List Harvested) (qs : List QuotaEntry)
    (hnodup : speciesNodup qs) :
    hs.foldl applyHarvest qs = qs.map (foldRemaining hs) := by
  induction hs generalizing qs with
  | nil =>
    simp only [List.foldl_nil]
    have : foldRemaining [] = fun (q : QuotaEntry) => q := by
      funext q
      rfl
    rw [this]
    exact (List.map_id qs).symm
  | cons h t ih =>
    have hcount := countP_species_le_one qs hnodup (harvestedSpecies h)
    have happ : applyHarvest qs h = qs.map fun q =>
        if q.species == harvestedSpecies h
        then { q with remaining := max 0 (q.remaining - h.quantity) } else q := by
      unfold applyHarvest
      exact updateFirst_eq_map_of_countP_le_one _ _ qs hcount
    have hpres : ∀ q : QuotaEntry,
        ((fun q => if q.species == harvestedSpecies h
          then { q with remaining := max 0 (q.remaining - h.quantity) } else q) q).species
          = q.species := by
      intro q
      by_cases hm : q.species == harvestedSpecies h
      · simp [hm]
      · simp [hm]
    have hnodup' : speciesNodup (applyHarvest qs h) := by
      unfold speciesNodup
      rw [happ, List.map_map]
      have : (QuotaEntry.species ∘ fun q =>
          if q.species == harvestedSpecies h
          then { q with remaining := max 0 (q.remaining - h.quantity) } else q)
          = QuotaEntry.species := by
        funext q
        exact hpres q
      rw [this]
      exact hnodup
    rw [List.foldl_cons, ih (applyHarvest qs h) hnodup', happ, List.map_map]
    refine List.map_congr_left ?_
    intro q _
    simp only [Function.comp]
    by_cases hm : q.species == harvestedSpecies h
    · have hm2 : (harvestedSpecies h == q.species) = true := by
        have : q.species = harvestedSpecies h := by simpa using hm
        simp [this]
      simp only [hm, if_true, foldRemaining, List.foldl_cons, clampStep, hm2, if_true]
    · have hm' : (q.species == harvestedSpecies h) = false := by
        rcases hb : (q.species == harvestedSpecies h) with _ | _
        · rfl
        · exact absurd hb hm
      have hm2 : (harvestedSpecies h == q.species) = false := by
        rcases hb : (harvestedSpecies h == q.species) with _ | _
        · rfl
        · have : harvestedSpecies h = q.species := by simpa using hb
          rw [this] at hm'
          simp at hm'
      simp only [hm', Bool.false_eq_true, if_false, foldRemaining, List.foldl_cons,
        clampStep, hm2]

/-! ### Lemmas about booking creation -/

/-- `create_booking` without admin override either leaves the state
untouched (double-booking refusal) or, when the hunter had no
pending/confirmed booking on the date, appends exactly one booking row
for this hunter, date and field, with a pending/confirmed status. -/
theorem create_booking_state (db : DB) (fid h : Nat) (d : String) (n tp : Int)
    (pid : String) :
    ((check_hunter_has_booking_on_date db h d).1 = true ∧
      (create_booking db fid h d n tp pid false).1 = db) ∨
    ((check_hunter_has_booking_on_date db h d).1 = false ∧
      ∃ b : Booking,
        (create_booking db fid h d n tp pid false).1 =
          { db with bookings := db.bookings ++ [b],
                    next_booking_id := db.next_booking_id + 1 } ∧
        b.hunter_id = h ∧ b.date = d ∧ b.field_id = fid ∧
        b.num_hunters = n ∧ isActiveStatus b.status = true) := by
  by_cases hc : (check_hunter_has_booking_on_date db h d).1
  · left
    refine ⟨hc, ?_⟩
    simp only [create_booking, Bool.not_false, if_true, hc]
  · right
    have hc' : (check_hunter_has_booking_on_date db h d).1 = false := by
      rcases hb : (check_hunter_has_booking_on_date db h d).1 with _ | _
      · rfl
      · exact absurd hb hc
    refine ⟨hc', ?_⟩
    rcases hf : db.fields.find? (fun f => f.id == fid) with _ | f
    · simp only [create_booking, Bool.not_false, if_true, hc', Bool.false_eq_true,
        if_false, hf]
      exact ⟨_, rfl, rfl, rfl, rfl, rfl, rfl⟩
    · by_cases ha : f.auto_approve_bookings
      · simp only [create_booking, Bool.not_false, if_true, hc', Bool.false_eq_true,
          if_false, hf, ha]
        exact ⟨_, rfl, rfl, rfl, rfl, rfl, rfl⟩
      · simp only [create_booking, Bool.not_false, if_true, hc', Bool.false_eq_true,
          if_false, hf, ha]
        exact ⟨_, rfl, rfl, rfl, rfl, rfl, rfl⟩

theorem create_booking_preserves_hunterDate (db : DB) (fid h : Nat) (d : String)
    (n tp : Int) (pid : String) (inv : hunterDateInvariant db) :
    hunterDateInvariant (create_booking db fid h d n tp pid false).1 := by
  rcases create_booking_state db fid h d n tp pid with ⟨_, heq⟩ | ⟨hc, b, heq, hbh, hbd, _, _, hact⟩
  · rw [heq]
    exact inv
  · intro h' d'
    rw [heq]
    simp only [hunterDateInvariant, activeBookingsOf] at inv ⊢
    rw [List.filter_append, List.length_append]
    by_cases hmatch : h' = h ∧ d' = d
    · rcases hmatch with ⟨rfl, rfl⟩
      have hnone : db.bookings.find?
          (fun x => x.hunter_id == h' && x.date == d' && isActiveStatus x.status) = none := by
        rcases hfind : db.bookings.find?
            (fun x => x.hunter_id == h' && x.date == d' && isActiveStatus x.status) with _ | y
        · exact hfind
        · exfalso
          have : (check_hunter_has_booking_on_date db h' d').1 = true := by
            simp only [check_hunter_has_booking_on_date, hfind]
            rfl
          rw [this] at hc
          exact absurd hc (by simp)
      have hempty : db.bookings.filter
          (fun x => x.hunter_id == h' && x.date == d' && isActiveStatus x.status) = [] :=
        List.filter_eq_nil_iff.mpr (List.find?_eq_none.mp hnone)
      rw [hempty]
      have : ([b].filter
          (fun x => x.hunter_id == h' && x.date == d' && isActiveStatus x.status)).length
          ≤ [b].length := List.length_filter_le _ _
      simpa using this
    · have hpb : (b.hunter_id == h' && b.date == d' && isActiveStatus b.status) = false := by
        rcases Decidable.not_and_iff_or_not.mp hmatch with hne | hne
        · have : (b.hunter_id == h') = false := by
            rw [hbh]
            simpa using fun e => hne e.symm
          simp [this]
        · have : (b.date == d') = false := by
            rw [hbd]
            simpa using fun e => hne e.symm
          simp [this]
      have : [b].filter
          (fun x => x.hunter_id == h' && x.date == d' && isActiveStatus x.status) = [] := by
        simp [List.filter, hpb]
      rw [this]
      simpa using inv h' d'

/-- The invariant-preservation part of the double-booking rule, lifted to
arbitrary call sequences. -/
theorem run_bookings_preserves_hunterDate (rs : List BookingRequest) (db : DB)
    (inv : hunterDateInvariant db) : hunterDateInvariant (run_bookings db rs) := by
  induction rs generalizing db with
  | nil => exact inv
  | cons r rs ih =>
    exact ih _ (create_booking_preserves_hunterDate db r.field_id r.hunter_id r.date
      r.num_hunters r.total_price r.payment_id inv)

/-- Inversion of a successful availability check: the field exists and
the requested party still fits under its capacity. -/
theorem check_availability_true_elim (db : DB) (fid : Nat) (d : String) (n : Int)
    (h : (check_availability db fid d n).1 = true) :
    ∃ f, db.fields.find? (fun g => g.id == fid) = some f ∧
      totalHuntersBooked db fid d + n ≤ f.capacity := by
  unfold check_availability at h
  rcases hf : db.fields.find? (fun g => g.id == fid) with _ | f
  · rw [hf] at h
    simp at h
  · rw [hf] at h
    dsimp only at h
    split_ifs at h with hb hcap
    exact ⟨f, hf, by omega⟩

theorem guarded_create_preserves_capacity (db : DB) (fid h : Nat) (d : String)
    (n tp : Int) (pid : String)
    (hav : (check_availability db fid d n).1 = true)
    (inv : capacityInvariant db) :
    capacityInvariant (create_booking db fid h d n tp pid false).1 := by
  rcases create_booking_state db fid h d n tp pid with ⟨_, heq⟩ | ⟨_, b, heq, _, hbd, hbf, hbn, hact⟩
  · rw [heq]
    exact inv
  · rcases check_availability_true_elim db fid d n hav with ⟨f0, hf0, hcap⟩
    intro fid' d' f hf
    rw [heq] at hf ⊢
    simp only [capacityInvariant, totalHuntersBooked, bookingsOnDate] at inv ⊢
    simp only at hf
    rw [List.filter_append, List.map_append, List.sum_append]
    by_cases hmatch : fid' = fid ∧ d' = d
    · rcases hmatch with ⟨rfl, rfl⟩
      have hpb : (b.field_id == fid' && b.date == d' && isActiveStatus b.status) = true := by
        simp [hbf, hbd, hact]
      have hsingle : [b].filter
          (fun x => x.field_id == fid' && x.date == d' && isActiveStatus x.status) = [b] := by
        simp [List.filter, hpb]
      rw [hsingle]
      have hff : f = f0 := by
        rw [hf] at hf0
        exact (Option.some.injEq _ _ ▸ hf0).symm ▸ rfl
      simp only [List.map, List.sum_cons, List.sum_nil, hbn]
      simp only [totalHuntersBooked, bookingsOnDate] at hcap
      rw [hff]
      omega
    · have hpb : (b.field_id == fid' && b.date == d' && isActiveStatus b.status) = false := by
        rcases Decidable.not_and_iff_or_not.mp hmatch with hne | hne
        · have : (b.field_id == fid') = false := by
            rw [hbf]
            simpa using fun e => hne e.symm
          simp [this]
        · have : (b.date == d') = false := by
            rw [hbd]
            simpa using fun e => hne e.symm
          simp [this]
      have : [b].filter
          (fun x => x.field_id == fid' && x.date == d' && isActiveStatus x.status) = [] := by
        simp [List.filter, hpb]
      rw [this]
      simpa using inv fid' d' f hf

/-! ### Lemmas about hunt sessions and reports -/

theorem start_hunt_session_status (db : DB) (sid : Nat) (now : Nat) (s : HuntSession)
    (hs : db.sessions.find? (fun x => x.id == sid) = some s) :
    sessionStatus (start_hunt_session db sid now).1 sid = some "active" ∧
    (start_hunt_session db sid now).2 =
      some { s with start_time := some now, status := "active" } := by
  have hps : (s.id == sid) = true := by
    have := List.find?_some hs
    simpa using this
  constructor
  · simp only [start_hunt_session, hs, sessionStatus]
    rw [find?_updateFirst (fun x => x.id == sid)
      (fun _ => { s with start_time := some now, status := "active" }) db.sessions
      (fun x _ => hps)]
    rw [hs]
    rfl
  · simp only [start_hunt_session, hs]

theorem end_hunt_session_status (db : DB) (sid : Nat) (now : Nat) (s : HuntSession)
    (hs : db.sessions.find? (fun x => x.id == sid) = some s) :
    sessionStatus (end_hunt_session db sid now).1 sid = some "completed" ∧
    (end_hunt_session db sid now).2 =
      some { s with end_time := some now, status := "completed" } := by
  have hps : (s.id == sid) = true := by
    have := List.find?_some hs
    simpa using this
  constructor
  · simp only [end_hunt_session, hs, sessionStatus]
    rw [find?_updateFirst (fun x => x.id == sid)
      (fun _ => { s with end_time := some now, status := "completed" }) db.sessions
      (fun x _ => hps)]
    rw [hs]
    rfl
  · simp only [end_hunt_session, hs]

theorem end_hunt_session_not_found (db : DB) (sid : Nat) (now : Nat)
    (hs : db.sessions.find? (fun x => x.id == sid) = none) :
    end_hunt_session db sid now = (db, none) := by
  simp only [end_hunt_session, hs]

/-- Every availability-guarded session operation either keeps the status
or advances it one step along not_started → active → completed. -/
theorem applyGuardedOp_step (db : DB) (sid : Nat) (op : GuardedSessionOp) (st : String)
    (hst : sessionStatus db sid = some st) :
    ∃ st2, sessionStatus (applyGuardedOp db sid op) sid = some st2 ∧ sessionStep st st2 := by
  rcases hfind : db.sessions.find? (fun x => x.id == sid) with _ | s
  · rw [sessionStatus, hfind] at hst
    exact absurd hst (by simp)
  · have hstat : s.status = st := by
      rw [sessionStatus, hfind] at hst
      simpa using hst
    cases op with
    | start now =>
      simp only [applyGuardedOp, hfind]
      by_cases hns : s.status == "not_started"
      · rw [if_pos hns]
        refine ⟨"active", (start_hunt_session_status db sid now s hfind).1, ?_⟩
        have : st = "not_started" := by
          rw [← hstat]
          simpa using hns
        exact Or.inr (Or.inl ⟨this, rfl⟩)
      · rw [if_neg hns]
        exact ⟨st, hst, Or.inl rfl⟩
    | finish now =>
      simp only [applyGuardedOp, hfind]
      by_cases hac : s.status == "active"
      · rw [if_pos hac]
        refine ⟨"completed", (end_hunt_session_status db sid now s hfind).1, ?_⟩
        have : st = "active" := by
          rw [← hstat]
          simpa using hac
        exact Or.inr (Or.inr ⟨this, rfl⟩)
      · rw [if_neg hac]
        exact ⟨st, hst, Or.inl rfl⟩

theorem create_hunt_report_sessions (db : DB) (sid fid hid : Nat) (rd : ReportData)
    (today : String) :
    (create_hunt_report db sid fid hid rd today).1.sessions = db.sessions := by
  simp only [create_hunt_report]
  rcases hf : db.fields.find? (fun f => f.id == fid) with _ | f <;> simp [hf]

theorem end_hunt_session_reports (db : DB) (sid : Nat) (now : Nat) :
    (end_hunt_session db sid now).1.reports = db.reports := by
  unfold end_hunt_session
  rcases hf : db.sessions.find? (fun x => x.id == sid) with _ | s
  · rw [hf]
  · rw [hf]

theorem create_hunt_report_reports (db : DB) (sid fid hid : Nat) (rd : ReportData)
    (today : String) :
    ∃ r, (create_hunt_report db sid fid hid rd today).1.reports = db.reports ++ [r] ∧
      r.session_id = sid := by
  simp only [create_hunt_report]
  rcases hf : db.fields.find? (fun f => f.id == fid) with _ | f <;>
    simp only [hf] <;>
    exact ⟨_, rfl, rfl⟩

/-! ### Lemmas about the field quota update -/

theorem updateFieldForReport_id (f : Field) (rd : ReportData) (today : String) :
    (updateFieldForReport f rd today).id = f.id := by
  simp only [updateFieldForReport]
  split
  · split
    · rfl
    · split <;> rfl
  · rfl

theorem updateFieldForReport_quarry_of_diy (f : Field) (rd : ReportData) (today : String)
    (hdiy : f.field_type = "diy-leased") (hne : f.quarry_species ≠ [])
    (hnodup : speciesNodup f.quarry_species) :
    (updateFieldForReport f rd today).quarry_species =
      f.quarry_species.map (foldRemaining rd.species_harvested) := by
  have hemp : f.quarry_species.isEmpty = false := by
    rcases hq : f.quarry_species with _ | ⟨q, qs⟩
    · exact absurd hq hne
    · rfl
  simp only [updateFieldForReport, hdiy, hemp]
  simp only [beq_self_eq_true, if_true, Bool.not_false]
  exact foldl_applyHarvest_eq_map rd.species_harvested f.quarry_species hnodup

theorem updateFieldForReport_scalar (f : Field) (rd : ReportData) (today : String)
    (hdiy : f.field_type = "diy-leased") (hemp : f.quarry_species = [])
    (r : Int) (hr : f.quarry_remaining = some r) :
    (updateFieldForReport f rd today).quarry_remaining =
      some (max 0 (r - rd.animals_harvested)) ∧
    (updateFieldForReport f rd today).quarry_species = f.quarry_species ∧
    (updateFieldForReport f rd today).quarry_total = f.quarry_total := by
  simp [updateFieldForReport, hdiy, hemp, hr]

theorem updateFieldForReport_non_diy (f : Field) (rd : ReportData) (today : String)
    (hdiy : f.field_type ≠ "diy-leased") :
    (updateFieldForReport f rd today).quarry_species = f.quarry_species ∧
    (updateFieldForReport f rd today).quarry_remaining = f.quarry_remaining ∧
    (updateFieldForReport f rd today).quarry_total = f.quarry_total := by
  have hb : (f.field_type == "diy-leased") = false := by
    simpa using hdiy
  simp [updateFieldForReport, hb]

theorem applyHarvest_preserves_ok (qs : List QuotaEntry) (h : Harvested)
    (hq : 0 ≤ h.quantity) (hok : ∀ q ∈ qs, quotaEntryOK q) :
    ∀ q ∈ applyHarvest qs h, quotaEntryOK q := by
  intro q hmem
  rcases mem_updateFirst hmem with hin | ⟨y, hy, rfl⟩
  · exact hok q hin
  · rcases hok y hy with ⟨h0, h1⟩
    refine ⟨le_max_left 0 _, ?_⟩
    show max 0 (y.remaining - h.quantity) ≤ y.total
    exact max_le (by omega) (by omega)

theorem foldl_applyHarvest_preserves_ok (hs : List Harvested) (qs : List QuotaEntry)
    (hq : ∀ h ∈ hs, 0 ≤ h.quantity) (hok : ∀ q ∈ qs, quotaEntryOK q) :
    ∀ q ∈ hs.foldl applyHarvest qs, quotaEntryOK q := by
  induction hs generalizing qs with
  | nil => exact hok
  | cons h t ih =>
    rw [List.foldl_cons]
    exact ih (applyHarvest qs h)
      (fun x hx => hq x (List.mem_cons_of_mem h hx))
      (applyHarvest_preserves_ok qs h (hq h (List.mem_cons_self h t)) hok)

theorem updateFieldForReport_preserves_quotaOK (f : Field) (rd : ReportData)
    (today : String) (ha : 0 ≤ rd.animals_harvested)
    (hq : ∀ h ∈ rd.species_harvested, 0 ≤ h.quantity)
    (hok : fieldQuotaOK f) : fieldQuotaOK (updateFieldForReport f rd today) := by
  rcases hok with ⟨hok1, hok2⟩
  simp only [updateFieldForReport]
  split
  · split
    · constructor
      · exact foldl_applyHarvest_preserves_ok rd.species_harvested f.quarry_species hq hok1
      · exact hok2
    · split
      · rename_i r hr
        constructor
        · exact hok1
        · intro r' t' hr' ht'
          have hrr : r' = max 0 (r - rd.animals_harvested) := by
            simpa using hr'.symm
          rcases hok2 r t' hr ht' with ⟨h0, h1⟩
          subst hrr
          exact ⟨le_max_left 0 _, max_le (by omega) (by omega)⟩
      · exact ⟨hok1, hok2⟩
  · exact ⟨hok1, hok2⟩

/-- An entry whose species is never harvested is untouched, at its
position, by the whole quota loop. -/
theorem foldl_applyHarvest_getElem?_frame (hs : List Harvested) (qs : List QuotaEntry)
    (i : Nat) (q : QuotaEntry) (hq : qs[i]? = some q)
    (hnm : ∀ h ∈ hs, (q.species == harvestedSpecies h) = false) :
    (hs.foldl applyHarvest qs)[i]? = some q := by
  induction hs generalizing qs with
  | nil => exact hq
  | cons h t ih =>
    rw [List.foldl_cons]
    refine ih (applyHarvest qs h) ?_ fun x hx => hnm x (List.mem_cons_of_mem h hx)
    unfold applyHarvest
    rw [updateFirst_getElem?_of_neg]
    · exact hq
    · intro x hxe
      rw [hq] at hxe
      have hxq : x = q := by
        injection hxe with hxe
        exact hxe.symm
      rw [hxq]
      exact hnm h (List.mem_cons_self h t)

/-- C7: `0 ≤ remaining ≤ total` (for every per-species quota entry and
for the scalar `(quarry_total, quarry_remaining)` pair) is preserved by
every `create_hunt_report` call, on every field of the state, given the
report's harvest counts are the nonnegative quantities the report form
produces. -/
theorem claim_C7_quota_bounds (db : DB) (sid fid hid : Nat)
    (rd : ReportData) (today : String) (ha : 0 ≤ rd.animals_harvested)
    (hq : ∀ h ∈ rd.species_harvested, 0 ≤ h.quantity)
    (hok : ∀ f ∈ db.fields, fieldQuotaOK f) :
    ∀ f ∈ (create_hunt_report db sid fid hid rd today).1.fields, fieldQuotaOK f := by
  simp only [create_hunt_report]
  rcases hf : db.fields.find? (fun g => g.id == fid) with _ | f0
  · simp only [hf]
    exact hok
  · simp only [hf]
    intro f hmem
    rcases mem_updateFirst hmem with hin | ⟨y, hy, rfl⟩
    · exact hok f hin
    · exact updateFieldForReport_preserves_quotaOK y rd today ha hq (hok y hy)

/-- Capacity preservation lifted to any sequence of availability-guarded
booking calls. -/
theorem run_guarded_bookings_preserves_capacity (rs : List BookingRequest) (db : DB)
    (inv : capacityInvariant db) : capacityInvariant (run_guarded_bookings db rs) := by
  induction rs generalizing db with
  | nil => exact inv
  | cons r rs ih =>
    simp only [run_guarded_bookings]
    by_cases hav : (check_availability db r.field_id r.date r.num_hunters).1
    · rw [if_pos hav]
      exact ih _ (guarded_create_preserves_capacity db r.field_id r.hunter_id r.date
        r.num_hunters r.total_price r.payment_id hav inv)
    · rw [if_neg hav]
      exact ih _ inv

theorem capacityInvariant_dbA : capacityInvariant dbA := by
  intro fid d f hf
  simp only [dbA, emptyDB, List.find?] at hf
  have hnil : totalHuntersBooked dbA fid d = 0 := by
    simp [totalHuntersBooked, bookingsOnDate, dbA, emptyDB]
  rw [hnil]
  split at hf
  · cases hf
    show (0:Int) ≤ fieldA.capacity
    decide
  · cases hf

theorem hunterDateInvariant_dbB : hunterDateInvariant dbB := by
  intro h d
  simp only [hunterDateInvariant, activeBookingsOf, dbB, dbA, emptyDB]
  exact List.length_filter_le _ _

/-! ### The claims -/

/-- C1: with `admin_override = False`, a `create_booking` call for a
hunter who already holds a pending/confirmed booking on the date returns
no booking and the double-booking message naming the conflicting
booking's field, and leaves the state unchanged; and any sequence of
override-free `create_booking` calls preserves the at-most-one
active-booking-per-hunter-per-date invariant. -/
theorem claim_C1_double_booking_prevention :
    (∀ (db : DB) (fid h : Nat) (d : String) (n tp : Int) (pid : String)
        (b : Booking) (f : Field),
      (check_hunter_has_booking_on_date db h d).2 = some b →
      db.fields.find? (fun g => g.id == b.field_id) = some f →
      (create_booking db fid h d n tp pid false).1 = db ∧
      (create_booking db fid h d n tp pid false).2.1 = none ∧
      (create_booking db fid h d n tp pid false).2.2 =
        "Double booking prevented: You already have a booking on " ++ d ++ " at " ++ f.name) ∧
    (∀ (db : DB) (rs : List BookingRequest),
      hunterDateInvariant db → hunterDateInvariant (run_bookings db rs)) := by
  constructor
  · intro db fid h d n tp pid b f h2 hf
    have ho : db.bookings.find?
        (fun x => x.hunter_id == h && x.date == d && isActiveStatus x.status) = some b := by
      simpa [check_hunter_has_booking_on_date] using h2
    refine ⟨?_, ?_, ?_⟩ <;>
      simp [create_booking, check_hunter_has_booking_on_date, ho, hf]
  · intro db rs inv
    exact run_bookings_preserves_hunterDate rs db inv

/-- C1 witness: in `dbB` hunter 1 already holds `bookingB` on 2025-01-01,
so a second booking attempt is refused with the message naming field
Alpha, the state is unchanged, and running a request sequence keeps the
invariant. -/
theorem claim_C1_witness :
    ((create_booking dbB 1 1 "2025-01-01" 1 100 "pm_2" false).1 = dbB ∧
     (create_booking dbB 1 1 "2025-01-01" 1 100 "pm_2" false).2.1 = none ∧
     (create_booking dbB 1 1 "2025-01-01" 1 100 "pm_2" false).2.2 =
       "Double booking prevented: You already have a booking on 2025-01-01 at Alpha") ∧
    hunterDateInvariant (run_bookings dbB [⟨1, 1, "2025-01-01", 1, 100, "pm_3"⟩]) := by
  constructor
  · exact claim_C1_double_booking_prevention.1 dbB 1 1 "2025-01-01" 1 100 "pm_2"
      bookingB fieldA (by decide) (by decide)
  · exact claim_C1_double_booking_prevention.2 dbB _ hunterDateInvariant_dbB

/-- C2 counterexample: `create_booking` performs no capacity check at
all.  In `dbA` field 1 has capacity 1 and no bookings, yet a booking for
2 hunters is accepted and the capacity invariant is broken. -/
theorem claim_C2_counterexample :
    capacityInvariant dbA ∧
    (create_booking dbA 1 7 "2025-01-01" 2 200 "pm" false).2.1 ≠ none ∧
    ¬ capacityInvariant (create_booking dbA 1 7 "2025-01-01" 2 200 "pm" false).1 := by
  refine ⟨capacityInvariant_dbA, by decide, ?_⟩
  intro hinv
  have h2 := hinv 1 "2025-01-01" fieldA (by decide)
  have h3 : totalHuntersBooked
      (create_booking dbA 1 7 "2025-01-01" 2 200 "pm" false).1 1 "2025-01-01" = 2 := by
    decide
  rw [h3] at h2
  have h4 : fieldA.capacity = 1 := rfl
  omega

/-- C2 amended: `create_booking` itself does not enforce the capacity
invariant (see the counterexample); the invariant is preserved whenever
each `create_booking` call is guarded by a successful
`check_availability` in the same state, which is how the booking UI
issues them. -/
theorem claim_C2_amended_capacity :
    (∀ (db : DB) (fid h : Nat) (d : String) (n tp : Int) (pid : String),
      (check_availability db fid d n).1 = true →
      capacityInvariant db →
      capacityInvariant (create_booking db fid h d n tp pid false).1) ∧
    (∀ (db : DB) (rs : List BookingRequest),
      capacityInvariant db → capacityInvariant (run_guarded_bookings db rs)) := by
  constructor
  · exact fun db fid h d n tp pid hav inv =>
      guarded_create_preserves_capacity db fid h d n tp pid hav inv
  · exact fun db rs inv => run_guarded_bookings_preserves_capacity rs db inv

/-- C2 witness: a 1-hunter booking on the capacity-1 field passes the
availability check and preserves the invariant, singly and in a
sequence. -/
theorem claim_C2_witness :
    capacityInvariant (create_booking dbA 1 7 "2025-01-01" 1 100 "pm" false).1 ∧
    capacityInvariant (run_guarded_bookings dbA [⟨1, 7, "2025-01-01", 1, 100, "pm"⟩]) := by
  constructor
  · exact claim_C2_amended_capacity.1 dbA 1 7 "2025-01-01" 1 100 "pm" (by decide)
      capacityInvariant_dbA
  · exact claim_C2_amended_capacity.2 dbA _ capacityInvariant_dbA

/-- C5: `check_availability` checks, in order: field existence, blocked
date, capacity (counting pending/confirmed bookings on the field and
date), the first failure winning, and reports the remaining headroom in
the capacity message.  It is a pure read by construction: the embedding
returns no state. -/
theorem claim_C5_check_availability :
    (∀ (db : DB) (fid : Nat) (d : String) (n : Int),
      db.fields.find? (fun g => g.id == fid) = none →
      check_availability db fid d n = (false, "Field not found")) ∧
    (∀ (db : DB) (fid : Nat) (d : String) (n : Int) (f : Field),
      db.fields.find? (fun g => g.id == fid) = some f →
      d ∈ f.blocked_dates →
      check_availability db fid d n = (false, "Date is blocked by outfitter")) ∧
    (∀ (db : DB) (fid : Nat) (d : String) (n : Int) (f : Field),
      db.fields.find? (fun g => g.id == fid) = some f →
      d ∉ f.blocked_dates →
      f.capacity < totalHuntersBooked db fid d + n →
      check_availability db fid d n =
        (false, "Insufficient capacity. Only "
          ++ toString (f.capacity - totalHuntersBooked db fid d) ++ " spots available")) ∧
    (∀ (db : DB) (fid : Nat) (d : String) (n : Int) (f : Field),
      db.fields.find? (fun g => g.id == fid) = some f →
      d ∉ f.blocked_dates →
      totalHuntersBooked db fid d + n ≤ f.capacity →
      check_availability db fid d n = (true, "Available")) := by
  refine ⟨?_, ?_, ?_, ?_⟩
  · intro db fid d n hf
    simp [check_availability, hf]
  · intro db fid d n f hf hbl
    simp [check_availability, hf, hbl]
  · intro db fid d n f hf hbl hcap
    simp [check_availability, hf, hbl, hcap]
  · intro db fid d n f hf hbl hcap
    have hcap' : ¬ f.capacity < totalHuntersBooked db fid d + n := by omega
    simp [check_availability, hf, hbl, hcap']

/-- C5 witness: the four outcomes on the `dbA` example: unknown field,
blocked date, over-capacity request (headroom 1 reported), and an
available request. -/
theorem claim_C5_witness :
    check_availability dbA 9 "2025-01-01" 1 = (false, "Field not found") ∧
    check_availability dbA 1 "2025-01-02" 1 = (false, "Date is blocked by outfitter") ∧
    check_availability dbA 1 "2025-01-01" 2 =
      (false, "Insufficient capacity. Only 1 spots available") ∧
    check_availability dbA 1 "2025-01-01" 1 = (true, "Available") := by
  refine ⟨?_, ?_, ?_, ?_⟩
  · exact claim_C5_check_availability.1 dbA 9 "2025-01-01" 1 (by decide)
  · exact claim_C5_check_availability.2.1 dbA 1 "2025-01-02" 1 fieldA (by decide) (by decide)
  · have h := claim_C5_check_availability.2.2.1 dbA 1 "2025-01-01" 2 fieldA
      (by decide) (by decide) (by decide)
    simpa using h
  · have h := claim_C5_check_availability.2.2.2 dbA 1 "2025-01-01" 1 fieldA
      (by decide) (by decide) (by decide)
    exact h

/-- C9: `create_booking` does not check that the field exists: with no
conflicting booking and no override, it still creates and returns a
booking for the nonexistent field id, with status pending (the
auto-approve lookup finds nothing) and the plain success message. -/
theorem claim_C9_booking_nonexistent_field (db : DB) (fid h : Nat) (d : String)
    (n tp : Int) (pid : String)
    (hf : db.fields.find? (fun g => g.id == fid) = none)
    (hc : (check_hunter_has_booking_on_date db h d).1 = false) :
    ∃ b : Booking, (create_booking db fid h d n tp pid false).2.1 = some b ∧
      b.status = "pending" ∧ b.field_id = fid ∧
      (create_booking db fid h d n tp pid false).1.bookings = db.bookings ++ [b] ∧
      (create_booking db fid h d n tp pid false).2.2 = "Booking created successfully" := by
  simp only [create_booking, Bool.not_false, if_true, hc, Bool.false_eq_true, if_false, hf]
  exact ⟨_, rfl, rfl, rfl, rfl, rfl⟩

/-- C9 witness: booking field 5 in the empty database succeeds with a
pending booking. -/
theorem claim_C9_witness :
    ∃ b : Booking, (create_booking emptyDB 5 7 "2025-01-01" 1 100 "pm" false).2.1 = some b ∧
      b.status = "pending" ∧ b.field_id = 5 ∧
      (create_booking emptyDB 5 7 "2025-01-01" 1 100 "pm" false).1.bookings =
        emptyDB.bookings ++ [b] ∧
      (create_booking emptyDB 5 7 "2025-01-01" 1 100 "pm" false).2.2 =
        "Booking created successfully" :=
  claim_C9_booking_nonexistent_field emptyDB 5 7 "2025-01-01" 1 100 "pm" rfl rfl

/-- C4 counterexample: `start_hunt_session` performs no status check.
Session 1 of `dbA` is already completed, yet the call does not fail: it
moves the session back to active, reversing out of `completed`. -/
theorem claim_C4_counterexample :
    sessionStatus dbA 1 = some "completed" ∧
    (start_hunt_session dbA 1 7).2 ≠ none ∧
    sessionStatus (start_hunt_session dbA 1 7).1 1 = some "active" := by
  refine ⟨by decide, by decide, by decide⟩

/-- C4 amended: `start_hunt_session` and `end_hunt_session` set the
status to active resp. completed unconditionally for any existing
session; the prefix-of-[not_started, active, completed] discipline holds
for the UI-guarded calls (start only from not_started, finish only from
active, as src/app.py renders the buttons), each of which either keeps
the status or advances it one step. -/
theorem claim_C4_amended_lifecycle :
    (∀ (db : DB) (sid now : Nat) (s : HuntSession),
      db.sessions.find? (fun x => x.id == sid) = some s →
      sessionStatus (start_hunt_session db sid now).1 sid = some "active") ∧
    (∀ (db : DB) (sid now : Nat) (s : HuntSession),
      db.sessions.find? (fun x => x.id == sid) = some s →
      sessionStatus (end_hunt_session db sid now).1 sid = some "completed") ∧
    (∀ (db : DB) (sid : Nat) (op : GuardedSessionOp) (st : String),
      sessionStatus db sid = some st →
      ∃ st2, sessionStatus (applyGuardedOp db sid op) sid = some st2 ∧ sessionStep st st2) := by
  refine ⟨?_, ?_, ?_⟩
  · intro db sid now s hs
    exact (start_hunt_session_status db sid now s hs).1
  · intro db sid now s hs
    exact (end_hunt_session_status db sid now s hs).1
  · intro db sid op st hst
    exact applyGuardedOp_step db sid op st hst

/-- C4 witness: starting the not-yet-started session 2 of `dbA` makes it
active; ending it makes it completed; a guarded start from not_started
takes one lifecycle step. -/
theorem claim_C4_witness :
    sessionStatus (start_hunt_session dbA 2 7).1 2 = some "active" ∧
    sessionStatus (end_hunt_session dbA 2 8).1 2 = some "completed" ∧
    ∃ st2, sessionStatus (applyGuardedOp dbA 2 (GuardedSessionOp.start 7)) 2 = some st2 ∧
      sessionStep "not_started" st2 := by
  refine ⟨?_, ?_, ?_⟩
  · exact claim_C4_amended_lifecycle.1 dbA 2 7 ⟨2, 2, "not_started", none, none⟩ (by decide)
  · exact claim_C4_amended_lifecycle.2.1 dbA 2 8 ⟨2, 2, "not_started", none, none⟩ (by decide)
  · exact claim_C4_amended_lifecycle.2.2 dbA 2 (GuardedSessionOp.start 7) "not_started"
      (by decide)

/-- C6 counterexample: `end_hunt_session` performs neither a status check
nor a report check.  Session 2 of `dbA` is not active and no report
exists, yet the call succeeds and completes the session instead of
failing and leaving it unchanged. -/
theorem claim_C6_counterexample :
    sessionStatus dbA 2 = some "not_started" ∧
    dbA.reports = [] ∧
    (end_hunt_session dbA 2 9).2 ≠ none ∧
    sessionStatus (end_hunt_session dbA 2 9).1 2 = some "completed" := by
  refine ⟨by decide, rfl, by decide, by decide⟩

/-- C6 amended: `end_hunt_session` unconditionally records `end_time`
and sets status completed for any existing session (and returns the
state unchanged when the session does not exist); the report-before-end
sequencing lives in its only caller (src/app.py:1929-1930), whose flow
first files the report and then ends the session, after which a report
for the session exists and the session is completed. -/
theorem claim_C6_amended_end_session :
    (∀ (db : DB) (sid now : Nat) (s : HuntSession),
      db.sessions.find? (fun x => x.id == sid) = some s →
      (end_hunt_session db sid now).2 =
        some { s with end_time := some now, status := "completed" } ∧
      sessionStatus (end_hunt_session db sid now).1 sid = some "completed") ∧
    (∀ (db : DB) (sid now : Nat),
      db.sessions.find? (fun x => x.id == sid) = none →
      end_hunt_session db sid now = (db, none)) ∧
    (∀ (db : DB) (sid fid hid : Nat) (rd : ReportData) (today : String) (now : Nat)
        (s : HuntSession),
      db.sessions.find? (fun x => x.id == sid) = some s →
      sessionStatus (finish_hunt_flow db sid fid hid rd today now).1 sid = some "completed" ∧
      ∃ r ∈ (finish_hunt_flow db sid fid hid rd today now).1.reports, r.session_id = sid) := by
  refine ⟨?_, ?_, ?_⟩
  · intro db sid now s hs
    exact ⟨(end_hunt_session_status db sid now s hs).2,
      (end_hunt_session_status db sid now s hs).1⟩
  · intro db sid now hs
    exact end_hunt_session_not_found db sid now hs
  · intro db sid fid hid rd today now s hs
    have hs1 : (create_hunt_report db sid fid hid rd today).1.sessions.find?
        (fun x => x.id == sid) = some s := by
      rw [create_hunt_report_sessions db sid fid hid rd today]
      exact hs
    constructor
    · simp only [finish_hunt_flow]
      exact (end_hunt_session_status _ sid now s hs1).1
    · rcases create_hunt_report_reports db sid fid hid rd today with ⟨r, hrep, hrsid⟩
      refine ⟨r, ?_, hrsid⟩
      simp only [finish_hunt_flow]
      rw [end_hunt_session_reports, hrep]
      simp

/-- C6 witness: the report-then-end flow on session 2 of `dbA` leaves a
report for the session and a completed session; ending a session missing
from the state changes nothing. -/
theorem claim_C6_witness :
    (sessionStatus (finish_hunt_flow dbA 2 1 1 rdEx "2025-01-03" 9).1 2 = some "completed" ∧
     ∃ r ∈ (finish_hunt_flow dbA 2 1 1 rdEx "2025-01-03" 9).1.reports, r.session_id = 2) ∧
    end_hunt_session dbA 9 9 = (dbA, none) := by
  constructor
  · exact claim_C6_amended_end_session.2.2 dbA 2 1 1 rdEx "2025-01-03" 9
      ⟨2, 2, "not_started", none, none⟩ (by decide)
  · exact claim_C6_amended_end_session.2.1 dbA 9 9 (by decide)

/-- C3: on a diy-leased field, `create_hunt_report` rewrites the field
looked up by its id through `updateFieldForReport`; on a per-species
quota list (distinct species names, nonnegative harvest quantities and
remainders, as the report form produces) every entry's remaining becomes
`max 0 (remaining - quantity harvested of its species)` and stays
nonnegative; on a scalar quota, `quarry_remaining` becomes
`max 0 (remaining - animals_harvested)`; a report harvesting nothing
changes no quota value. -/
theorem claim_C3_quota_depletion :
    (∀ (db : DB) (sid fid hid : Nat) (rd : ReportData) (today : String),
      (create_hunt_report db sid fid hid rd today).1.fields.find? (fun g => g.id == fid) =
        (db.fields.find? (fun g => g.id == fid)).map
          (fun f => updateFieldForReport f rd today)) ∧
    (∀ (f : Field) (rd : ReportData) (today : String),
      f.field_type = "diy-leased" → f.quarry_species ≠ [] →
      speciesNodup f.quarry_species →
      (∀ h ∈ rd.species_harvested, 0 ≤ h.quantity) →
      (∀ q ∈ f.quarry_species, 0 ≤ q.remaining) →
      (updateFieldForReport f rd today).quarry_species =
        f.quarry_species.map (clampBySpeciesTotal rd.species_harvested) ∧
      ∀ q ∈ (updateFieldForReport f rd today).quarry_species, 0 ≤ q.remaining) ∧
    (∀ (f : Field) (rd : ReportData) (today : String) (r : Int),
      f.field_type = "diy-leased" → f.quarry_species = [] →
      f.quarry_remaining = some r →
      (updateFieldForReport f rd today).quarry_remaining =
        some (max 0 (r - rd.animals_harvested))) ∧
    (∀ (f : Field) (rd : ReportData) (today : String),
      rd.animals_harvested = 0 → rd.species_harvested = [] →
      (∀ r, f.quarry_remaining = some r → 0 ≤ r) →
      (updateFieldForReport f rd today).quarry_species = f.quarry_species ∧
      (updateFieldForReport f rd today).quarry_remaining = f.quarry_remaining) := by
  refine ⟨?_, ?_, ?_, ?_⟩
  · intro db sid fid hid rd today
    simp only [create_hunt_report]
    rcases hf : db.fields.find? (fun g => g.id == fid) with _ | f0
    · simp [hf]
    · simp only [hf]
      have hp : ∀ x : Field, (x.id == fid) = true →
          ((updateFieldForReport x rd today).id == fid) = true := by
        intro x hx
        rw [updateFieldForReport_id]
        exact hx
      rw [find?_updateFirst (fun g => g.id == fid)
        (fun f => updateFieldForReport f rd today) db.fields hp, hf]
  · intro f rd today hdiy hne hnodup hq h0
    have hmap := updateFieldForReport_quarry_of_diy f rd today hdiy hne hnodup
    constructor
    · rw [hmap]
      refine List.map_congr_left ?_
      intro q hqmem
      show foldRemaining rd.species_harvested q = clampBySpeciesTotal rd.species_harvested q
      unfold foldRemaining clampBySpeciesTotal
      rw [foldl_clamp_eq q.species rd.species_harvested q.remaining (h0 q hqmem) hq]
    · intro q hqmem
      rw [hmap] at hqmem
      rcases List.mem_map.mp hqmem with ⟨y, hy, rfl⟩
      show (0:Int) ≤ (foldRemaining rd.species_harvested y).remaining
      unfold foldRemaining
      show (0:Int) ≤ rd.species_harvested.foldl (clampStep y.species) y.remaining
      rw [foldl_clamp_eq y.species rd.species_harvested y.remaining (h0 y hy) hq]
      exact le_max_left 0 _
  · intro f rd today r hdiy hemp hr
    exact (updateFieldForReport_scalar f rd today hdiy hemp r hr).1
  · intro f rd today ha hsp h0
    by_cases hdiy : f.field_type = "diy-leased"
    · by_cases hemp : f.quarry_species.isEmpty
      · have hemp' : f.quarry_species = [] := List.isEmpty_iff.mp hemp
        rcases hr : f.quarry_remaining with _ | r
        · constructor <;> simp [updateFieldForReport, hdiy, hemp', hr]
        · have hsc := updateFieldForReport_scalar f rd today hdiy hemp' r hr
          refine ⟨hsc.2.1, ?_⟩
          rw [hsc.1, ha]
          have hrr := h0 r hr
          exact congrArg some (by omega)
      · constructor <;> simp [updateFieldForReport, hdiy, hemp, hsp]
    · have hnd := updateFieldForReport_non_diy f rd today hdiy
      exact ⟨hnd.1, hnd.2.1⟩

/-- C3 witness: three Red Deer reported against the 10/10 quota of
`fieldA` deplete exactly that entry; the scalar quota of `fieldC` drops
to `max 0 (4 - 3)`; the empty report leaves `fieldA`'s quota be. -/
theorem claim_C3_witness :
    (updateFieldForReport fieldA rdEx "2025-01-03").quarry_species =
      fieldA.quarry_species.map (clampBySpeciesTotal rdEx.species_harvested) ∧
    (updateFieldForReport fieldC rdEx "2025-01-03").quarry_remaining =
      some (max 0 (4 - rdEx.animals_harvested)) ∧
    (updateFieldForReport fieldA rdZero "2025-01-03").quarry_species =
      fieldA.quarry_species := by
  refine ⟨?_, ?_, ?_⟩
  · exact (claim_C3_quota_depletion.2.1 fieldA rdEx "2025-01-03" rfl (by decide)
      (by simp [speciesNodup, fieldA]) (by decide) (by decide)).1
  · exact claim_C3_quota_depletion.2.2.1 fieldC rdEx "2025-01-03" 4 rfl rfl rfl
  · exact (claim_C3_quota_depletion.2.2.2 fieldA rdZero "2025-01-03" rfl rfl
      (fun r hr => by simp [fieldA] at hr)).1

/-- C7 witness: the Red Deer report on `dbA` keeps `0 ≤ remaining ≤
total` on the one field of the resulting state. -/
theorem claim_C7_witness :
    fieldQuotaOK (updateFieldForReport fieldA rdEx "2025-01-03") := by
  have hok : ∀ f ∈ dbA.fields, fieldQuotaOK f := by
    intro f hf
    have hfa : f = fieldA := by simpa [dbA, emptyDB] using hf
    subst hfa
    constructor
    · intro q hq
      have hqa : q = ⟨"Red Deer", 10, 10⟩ := by simpa [fieldA] using hq
      subst hqa
      exact ⟨by decide, by decide⟩
    · intro r t hr ht
      simp [fieldA] at hr
  exact claim_C7_quota_bounds dbA 1 1 1 rdEx "2025-01-03" (by decide) (by decide) hok
    (updateFieldForReport fieldA rdEx "2025-01-03") (by decide)

/-- C8: with the spec's reading of `uuid.uuid4` as a collision-free
random token (an injective, fresh draw from the token stream), two
`create_animal_tag` calls issue distinct tag numbers, looking either
number up returns exactly that tag's record, and looking up a string no
issued tag carries returns nothing. -/
theorem claim_C8_tag_uniqueness (db : DB) (hr1 hu1 f1 : Nat) (sp1 c1 : String)
    (hr2 hu2 f2 : Nat) (sp2 c2 : String)
    (hne : db.uuids db.uuid_count ≠ db.uuids (db.uuid_count + 1))
    (hfresh : ∀ t ∈ db.tags, t.tag_number ≠ db.uuids db.uuid_count ∧
      t.tag_number ≠ db.uuids (db.uuid_count + 1)) :
    (create_animal_tag db hr1 hu1 f1 sp1 c1).2.tag_number ≠
      (create_animal_tag (create_animal_tag db hr1 hu1 f1 sp1 c1).1
        hr2 hu2 f2 sp2 c2).2.tag_number ∧
    get_animal_tag_by_tag_number
        (create_animal_tag (create_animal_tag db hr1 hu1 f1 sp1 c1).1 hr2 hu2 f2 sp2 c2).1
        (create_animal_tag db hr1 hu1 f1 sp1 c1).2.tag_number =
      some (create_animal_tag db hr1 hu1 f1 sp1 c1).2 ∧
    get_animal_tag_by_tag_number
        (create_animal_tag (create_animal_tag db hr1 hu1 f1 sp1 c1).1 hr2 hu2 f2 sp2 c2).1
        (create_animal_tag (create_animal_tag db hr1 hu1 f1 sp1 c1).1
          hr2 hu2 f2 sp2 c2).2.tag_number =
      some (create_animal_tag (create_animal_tag db hr1 hu1 f1 sp1 c1).1
        hr2 hu2 f2 sp2 c2).2 ∧
    (∀ s : String,
      (∀ t ∈ (create_animal_tag (create_animal_tag db hr1 hu1 f1 sp1 c1).1
          hr2 hu2 f2 sp2 c2).1.tags, t.tag_number ≠ s) →
      get_animal_tag_by_tag_number
        (create_animal_tag (create_animal_tag db hr1 hu1 f1 sp1 c1).1
          hr2 hu2 f2 sp2 c2).1 s = none) := by
  have e1 : (create_animal_tag db hr1 hu1 f1 sp1 c1).2.tag_number
      = db.uuids db.uuid_count := rfl
  have e2 : (create_animal_tag (create_animal_tag db hr1 hu1 f1 sp1 c1).1
      hr2 hu2 f2 sp2 c2).2.tag_number = db.uuids (db.uuid_count + 1) := rfl
  have h1 : db.tags.find?
      (fun t => t.tag_number == db.uuids db.uuid_count) = none := by
    rw [List.find?_eq_none]
    intro t ht
    simp [(hfresh t ht).1]
  have h2 : db.tags.find?
      (fun t => t.tag_number == db.uuids (db.uuid_count + 1)) = none := by
    rw [List.find?_eq_none]
    intro t ht
    simp [(hfresh t ht).2]
  refine ⟨hne, ?_, ?_, ?_⟩
  · show ((db.tags ++ [_]) ++ [_]).find? _ = _
    rw [e1, List.find?_append, List.find?_append, h1]
    simp [create_animal_tag, generate_unique_tag_number]
  · show ((db.tags ++ [_]) ++ [_]).find? _ = _
    rw [e2, List.find?_append, List.find?_append, h2]
    have hb : ((db.uuids db.uuid_count == db.uuids (db.uuid_count + 1)) : Bool) = false :=
      beq_eq_false_iff_ne.mpr hne
    simp [create_animal_tag, generate_unique_tag_number, hb]
  · intro s hs
    show _ = none
    rw [show get_animal_tag_by_tag_number
        (create_animal_tag (create_animal_tag db hr1 hu1 f1 sp1 c1).1 hr2 hu2 f2 sp2 c2).1 s
        = (create_animal_tag (create_animal_tag db hr1 hu1 f1 sp1 c1).1
            hr2 hu2 f2 sp2 c2).1.tags.find? (fun t => t.tag_number == s) from rfl]
    rw [List.find?_eq_none]
    intro t ht
    simp [hs t ht]

/-- C8 witness: starting from the empty state with the injective token
stream, two tag creations yield distinct, individually retrievable tags,
and an unissued string is not found. -/
theorem claim_C8_witness :
    (create_animal_tag emptyDB 1 1 1 "Red Deer" "healthy").2.tag_number ≠
      (create_animal_tag (create_animal_tag emptyDB 1 1 1 "Red Deer" "healthy").1
        1 1 1 "Boar" "diseased").2.tag_number ∧
    get_animal_tag_by_tag_number
        (create_animal_tag (create_animal_tag emptyDB 1 1 1 "Red Deer" "healthy").1
          1 1 1 "Boar" "diseased").1
        (create_animal_tag emptyDB 1 1 1 "Red Deer" "healthy").2.tag_number =
      some (create_animal_tag emptyDB 1 1 1 "Red Deer" "healthy").2 ∧
    get_animal_tag_by_tag_number
        (create_animal_tag (create_animal_tag emptyDB 1 1 1 "Red Deer" "healthy").1
          1 1 1 "Boar" "diseased").1 "zzz" = none := by
  have h := claim_C8_tag_uniqueness emptyDB 1 1 1 "Red Deer" "healthy"
    1 1 1 "Boar" "diseased" (by decide) (by decide)
  refine ⟨h.1, h.2.1, ?_⟩
  exact h.2.2.2 "zzz" (by decide)

/-- C10: quota entries of species absent from the report keep their value
at their position; a harvested entry matching no quota entry leaves the
quota list untouched; fields that are not diy-leased never have a quota
field mutated by a report. -/
theorem claim_C10_quota_frame :
    (∀ (f : Field) (rd : ReportData) (today : String) (i : Nat) (q : QuotaEntry),
      f.quarry_species[i]? = some q →
      q.species ∉ rd.species_harvested.map harvestedSpecies →
      (updateFieldForReport f rd today).quarry_species[i]? = some q) ∧
    (∀ (qs : List QuotaEntry) (h : Harvested),
      (∀ q ∈ qs, (q.species == harvestedSpecies h) = false) →
      applyHarvest qs h = qs) ∧
    (∀ (f : Field) (rd : ReportData) (today : String),
      f.field_type ≠ "diy-leased" →
      (updateFieldForReport f rd today).quarry_species = f.quarry_species ∧
      (updateFieldForReport f rd today).quarry_remaining = f.quarry_remaining ∧
      (updateFieldForReport f rd today).quarry_total = f.quarry_total) := by
  refine ⟨?_, ?_, ?_⟩
  · intro f rd today i q hq hnm
    have hbeq : ∀ h ∈ rd.species_harvested, (q.species == harvestedSpecies h) = false := by
      intro h hh
      rw [beq_eq_false_iff_ne]
      intro he
      apply hnm
      rw [he]
      exact List.mem_map_of_mem harvestedSpecies hh
    by_cases hdiy : f.field_type = "diy-leased"
    · by_cases hemp : f.quarry_species.isEmpty
      · have hemp' : f.quarry_species = [] := List.isEmpty_iff.mp hemp
        rcases hr : f.quarry_remaining with _ | r
        · have hsame : (updateFieldForReport f rd today).quarry_species = f.quarry_species := by
            simp [updateFieldForReport, hdiy, hemp', hr]
          rw [hsame]
          exact hq
        · have hsame : (updateFieldForReport f rd today).quarry_species = f.quarry_species :=
            (updateFieldForReport_scalar f rd today hdiy hemp' r hr).2.1
          rw [hsame]
          exact hq
      · have hfold : (updateFieldForReport f rd today).quarry_species =
            rd.species_harvested.foldl applyHarvest f.quarry_species := by
          simp [updateFieldForReport, hdiy, hemp]
        rw [hfold]
        exact foldl_applyHarvest_getElem?_frame rd.species_harvested f.quarry_species i q hq hbeq
    · rw [(updateFieldForReport_non_diy f rd today hdiy).1]
      exact hq
  · intro qs h hall
    unfold applyHarvest
    exact updateFirst_of_forall_neg _ _ qs hall
  · intro f rd today hdiy
    exact updateFieldForReport_non_diy f rd today hdiy

/-- C10 witness: a Boar-only report leaves the Red Deer entry of `fieldA`
in place; applying the Boar harvest to the quota list is the identity;
the subsidised `fieldB` keeps all quota fields under the Red Deer
report. -/
theorem claim_C10_witness :
    (updateFieldForReport fieldA rdBoar "2025-01-03").quarry_species[0]? =
      some ⟨"Red Deer", 10, 10⟩ ∧
    applyHarvest fieldA.quarry_species ⟨"Boar", 1⟩ = fieldA.quarry_species ∧
    ((updateFieldForReport fieldB rdEx "2025-01-03").quarry_species =
        fieldB.quarry_species ∧
      (updateFieldForReport fieldB rdEx "2025-01-03").quarry_remaining =
        fieldB.quarry_remaining ∧
      (updateFieldForReport fieldB rdEx "2025-01-03").quarry_total =
        fieldB.quarry_total) := by
  refine ⟨?_, ?_, ?_⟩
  · exact claim_C10_quota_frame.1 fieldA rdBoar "2025-01-03" 0 ⟨"Red Deer", 10, 10⟩
      (by decide) (by decide)
  · exact claim_C10_quota_frame.2.1 fieldA.quarry_species ⟨"Boar", 1⟩ (by decide)
  · exact claim_C10_quota_frame.2.2 fieldB rdEx "2025-01-03" (by decide)

end FSA
